import Mathlib

/-!
Verification of mtzip's `ZipJob` conversion core (src/zip_archive_parts/job.rs).

Shallow embedding of the job-to-entry conversion: the `ZipJob` descriptor,
`compress_file` (the digest engine built from `CrcReader` and
`DeflateEncoder`), platform attribute extraction, and `into_file`.

Machine integers are modelled as `Nat` with explicit `% 2^w` at the points
where the Rust code performs a truncating `as` cast. Fallible operations
return `Except`; Rust panics (`unwrap`) are modelled as an explicit
`panicked` outcome of conversion. The deflate primitive (the external
`flate2` crate) and the two collaborators whose sources are outside
`src/` (`ExtraFields` in extra_field.rs, `ZipFile::directory` in file.rs)
are modelled from the spec at their interface boundary; each such
definition is marked in its doc comment.
-/

namespace Mtzip

/-- The `CompressionType` enumeration: `{Stored, Deflate}`. -/
inductive CompressionType
  | Stored
  | Deflate
deriving DecidableEq

/-- Abstract IO error values (`std::io::Error`), reduced to an error code. -/
structure IOErr where
  code : Nat
deriving DecidableEq

/-! ## CRC-32 (flate2's `CrcReader` checksum, standard ISO-3309 reflected CRC-32) -/

/-- One bit step of reflected CRC-32: if the low bit is set, shift right and
xor the reversed polynomial 0xEDB88320, else just shift right. -/
def crc32Bit (r : Nat) : Nat :=
  if r % 2 = 1 then Nat.xor (r / 2) 0xEDB88320 else r / 2

/-- One byte step: xor the byte into the low 8 bits, then 8 bit steps. -/
def crc32Byte (r : Nat) (b : Nat) : Nat :=
  crc32Bit^[8] (Nat.xor r (b % 256))

/-- CRC-32 of a byte list: init 0xFFFFFFFF, byte steps, final complement. -/
def crc32 (bs : List Nat) : Nat :=
  Nat.xor (bs.foldl crc32Byte 0xFFFFFFFF) 0xFFFFFFFF

/-! ## Byte sources (`R: Read` consumed via `read_to_end`) -/

/-- A byte source as observed through `read_to_end`: it either yields all of
its bytes and reaches EOF, or fails with an IO error after yielding some
prefix (which `read_to_end` leaves in the buffer, but every caller in job.rs
then discards the whole digest via `?`). -/
inductive ReadSource
  | ok (bytes : List Nat)
  | err (readBytes : List Nat) (e : IOErr)
deriving DecidableEq

/-- Reading a source with `read_to_end`: all bytes, or the first IO error. -/
def readToEnd : ReadSource → Except IOErr (List Nat)
  | .ok bs => .ok bs
  | .err _ e => .error e

/-! ## The deflate primitive -/

/-- Modelled from the spec: the deflate algorithm is the external `flate2`
crate's `DeflateEncoder`, treated as an opaque primitive. The spec requires
only its interface behavior: the encoder consumes its entire input
(`total_in` equals the source length) and produces compressed bytes that
decompress back to exactly the input, at any compression level. -/
structure DeflateModel where
  encode : Nat → List Nat → List Nat
  decode : List Nat → List Nat
  decode_encode : ∀ lvl bs, decode (encode lvl bs) = bs

/-- A trivial instance of the deflate interface (identity coding), used to
evaluate the conversion pipeline on concrete inputs. -/
def idDeflate : DeflateModel where
  encode := fun _ bs => bs
  decode := fun bs => bs
  decode_encode := fun _ _ => rfl

/-! ## `FileDigest` and `compress_file` -/

/-- The `FileDigest`: compressed payload, uncompressed size (u32), CRC. -/
structure FileDigest where
  data : List Nat
  uncompressed_size : Nat
  crc : Nat
deriving DecidableEq

/-- The digest engine `ZipJob::compress_file`. Wraps the source in a `CrcReader` (so the CRC is
over the uncompressed bytes), then either drains it through a
`DeflateEncoder` at the given level (uncompressed size = `total_in`, i.e.
the full source length) or reads it directly (Stored; uncompressed size =
bytes read). `uncompressedSizeApprox` only pre-sizes the output `Vec`
(`Vec::with_capacity`), which `shrink_to_fit` then trims: it never affects
the digest's value. `debug_assert!(uncompressed_size <= u32::MAX as usize)`
is compiled out of release builds, so the `as u32` cast truncates: `% 2^32`.
A read error propagates via `?` and no digest is returned. -/
def compressFile (M : DeflateModel) (source : ReadSource)
    (uncompressedSizeApprox : Option Nat) (compressionType : CompressionType)
    (compressionLevel : Nat) : Except IOErr FileDigest :=
  match readToEnd source with
  | .error e => .error e
  | .ok bytes =>
    let data : List Nat :=
      match compressionType with
      | .Deflate => M.encode compressionLevel bytes
      | .Stored => bytes
    .ok { data := data
          uncompressed_size := bytes.length % 2 ^ 32
          crc := crc32 bytes }

/-! ## Extra fields (auxiliary records) and filesystem metadata -/

/-- Auxiliary records attached to an entry header. Their concrete encoding
lives in extra_field.rs (outside the visible core); each record is
abstracted to an opaque tag. The collection is ordered and keys need not be
unique. -/
abbrev ExtraFields := List Nat

/-- Modelled from the spec: `ExtraFields::extend` (extra_field.rs is not
under src/). The collection is "mergeable (append, order-preserving, no
deduplication contract)": extending appends the argument's records after
the receiver's. -/
def ExtraFields.extendWith (a b : ExtraFields) : ExtraFields := a ++ b

/-- Filesystem metadata as consumed by `into_file`: the byte length (u64),
the platform-native attribute bits, whether the path is a directory, and
the auxiliary records derivable from it. -/
structure Metadata where
  len : Nat
  st_mode : Nat
  isDir : Bool
  derivedExtra : ExtraFields
deriving DecidableEq

/-- Modelled from the spec: `ExtraFields::new_from_fs` (extra_field.rs is
not under src/) builds the metadata-derived auxiliary records. -/
def ExtraFields.new_from_fs (md : Metadata) : ExtraFields :=
  md.derivedExtra

/-- Attribute truncation `ZipJob::convert_attrs`: keep the low 16 bits
(`(attrs & 0xFFFF) as u16`). -/
def convert_attrs (attrs : Nat) : Nat :=
  attrs % 2 ^ 16

/-- The attribute extractor `ZipJob::attributes_from_fs`: its `cfg_if!` resolves
to exactly one branch at compile time; on Linux it is
`convert_attrs(metadata.st_mode())`. All byte-bearing branches truncate a
native attribute word to 16 bits. -/
def attributes_from_fs (md : Metadata) : Nat :=
  convert_attrs md.st_mode

/-- An opened file as `into_file` observes it: its metadata (from
`file.metadata()`) and its content as a byte source. -/
structure FsFile where
  metadata : Metadata
  content : ReadSource
deriving DecidableEq

/-- The ambient filesystem: `File::open` plus `file.metadata()`, either of
which can fail with an IO error (job.rs `unwrap`s both). -/
abbrev FileSystem := String → Except IOErr FsFile

/-! ## Job descriptor and output entry -/

/-- The `ZipJobOrigin` tagged union: the four origin kinds. The opaque
`Box<dyn Read + Send + Sync + ...>` reader is modelled by its observable
read behavior. -/
inductive ZipJobOrigin
  | Directory
  | Filesystem (path : String)
  | RawData (data : List Nat)
  | Reader (reader : ReadSource)
deriving DecidableEq

/-- The job descriptor `ZipJob`: origin plus entry metadata.
`external_attributes` is a u16
(theorems carry the `< 2^16` bound); `compression_level` is the numeric
level handed to the encoder. -/
structure ZipJob where
  data_origin : ZipJobOrigin
  extra_fields : ExtraFields
  archive_path : String
  file_comment : Option String
  external_attributes : Nat
  compression_level : Nat
  compression_type : CompressionType
deriving DecidableEq

/-- The produced entry's header fields (`ZipFileHeader`). -/
structure ZipFileHeader where
  compression_type : CompressionType
  crc : Nat
  uncompressed_size : Nat
  filename : String
  external_file_attributes : Nat
  extra_fields : ExtraFields
  file_comment : Option String
deriving DecidableEq

/-- The produced entry (`ZipFile`): header plus payload bytes. -/
structure ZipFile where
  header : ZipFileHeader
  data : List Nat
deriving DecidableEq

/-- Modelled from the spec: `ZipFile::directory` (file.rs is not under src/).
A directory entry has an empty payload, zero size and zero checksum;
compression settings are ignored (Stored is recorded); the archive path,
auxiliary records, external attributes (pre-shifted into the high 16 bits
of the 32-bit word) and comment are carried through unchanged. -/
def ZipFile.directory (archive_path : String) (extra_fields : ExtraFields)
    (external_attributes : Nat) (file_comment : Option String) : ZipFile :=
  { header :=
      { compression_type := CompressionType.Stored
        crc := 0
        uncompressed_size := 0
        filename := archive_path
        external_file_attributes := external_attributes * 2 ^ 16 % 2 ^ 32
        extra_fields := extra_fields
        file_comment := file_comment }
    data := [] }

/-- The outcome of `ZipJob::into_file`: a finished entry, a returned
`std::io::Error`, or a process abort from an `unwrap` panic. -/
inductive ConvResult
  | ok (f : ZipFile)
  | ioError (e : IOErr)
  | panicked
deriving DecidableEq

/-- Header of a successful conversion, if any. -/
def ConvResult.headerOf : ConvResult → Option ZipFileHeader
  | .ok f => some f.header
  | _ => none

/-- Payload of a successful conversion, if any. -/
def ConvResult.dataOf : ConvResult → Option (List Nat)
  | .ok f => some f.data
  | _ => none

/-- The entry builder `ZipJob::into_file`. Dispatches on the origin. For
`Filesystem`, both
`File::open(path).unwrap()` and `file.metadata().unwrap()` abort on failure
(modelled as `panicked`); the metadata length is truncated
(`debug_assert` compiled out, then `as u32`) and used only as the size
hint; attributes are extracted and the metadata-derived extra fields are
extended with the caller's. For every byte-bearing origin the header's
compression type is written as the literal `CompressionType::Deflate`, and
the 16-bit attribute word is widened to u32 and shifted left 16 bits. -/
def intoFile (M : DeflateModel) (fs : FileSystem) (job : ZipJob) : ConvResult :=
  match job.data_origin with
  | .Directory =>
    .ok (ZipFile.directory job.archive_path job.extra_fields
          job.external_attributes job.file_comment)
  | .Filesystem path =>
    match fs path with
    | .error _ => .panicked
    | .ok file =>
      let uncompressedSizeApprox := file.metadata.len % 2 ^ 32
      let externalFileAttributes := attributes_from_fs file.metadata
      let extraFields :=
        (ExtraFields.new_from_fs file.metadata).extendWith job.extra_fields
      match compressFile M file.content (some uncompressedSizeApprox)
          job.compression_type job.compression_level with
      | .error e => .ioError e
      | .ok d =>
        .ok { header :=
                { compression_type := CompressionType.Deflate
                  crc := d.crc
                  uncompressed_size := d.uncompressed_size
                  filename := job.archive_path
                  external_file_attributes :=
                    externalFileAttributes * 2 ^ 16 % 2 ^ 32
                  extra_fields := extraFields
                  file_comment := job.file_comment }
              data := d.data }
  | .RawData dat =>
    let uncompressedSizeApprox := dat.length % 2 ^ 32
    match compressFile M (.ok dat) (some uncompressedSizeApprox)
        job.compression_type job.compression_level with
    | .error e => .ioError e
    | .ok d =>
      .ok { header :=
              { compression_type := CompressionType.Deflate
                crc := d.crc
                uncompressed_size := d.uncompressed_size
                filename := job.archive_path
                external_file_attributes :=
                  job.external_attributes * 2 ^ 16 % 2 ^ 32
                extra_fields := job.extra_fields
                file_comment := job.file_comment }
            data := d.data }
  | .Reader r =>
    match compressFile M r none job.compression_type job.compression_level with
    | .error e => .ioError e
    | .ok d =>
      .ok { header :=
              { compression_type := CompressionType.Deflate
                crc := d.crc
                uncompressed_size := d.uncompressed_size
                filename := job.archive_path
                external_file_attributes :=
                  job.external_attributes * 2 ^ 16 % 2 ^ 32
                extra_fields := job.extra_fields
                file_comment := job.file_comment }
            data := d.data }

/-! Concrete fixtures used to evaluate the pipeline in witnesses and
counterexamples. -/

/-- A filesystem on which every open (or metadata) call fails. -/
def noFS : FileSystem := fun _ => .error ⟨2⟩

/-- A filesystem holding one file, "f.txt": 3 bytes of advertised length,
Linux mode 0o100644, one metadata-derived auxiliary record, empty content. -/
def fsOne : FileSystem := fun p =>
  if p = "f.txt" then .ok ⟨⟨3, 0o100644, false, [7]⟩, .ok []⟩ else .error ⟨2⟩

/-- A `RawData` job over five bytes requesting `Stored`. -/
def jobStoredRaw : ZipJob :=
  ⟨.RawData [5], [], "a.bin", none, 0, 6, .Stored⟩

/-- A `Filesystem` job on a path `noFS` does not hold. -/
def jobFsMissing : ZipJob :=
  ⟨.Filesystem "missing.txt", [], "missing.txt", none, 0, 6, .Deflate⟩

/-- A `RawData` job over a buffer of exactly 2^32 zero bytes, `Stored`. -/
def jobBigStored : ZipJob :=
  ⟨.RawData (List.replicate (2 ^ 32) 0), [], "big", none, 0, 6, .Stored⟩

/-- A `RawData` job over a buffer of exactly 2^32 one-bytes, `Deflate`. -/
def jobBigDeflate : ZipJob :=
  ⟨.RawData (List.replicate (2 ^ 32) 1), [], "big2", none, 0, 6, .Deflate⟩

/-! Claim theorems. -/

/-- C1: the spec claims a byte count above 2^32−1 makes conversion fail with
an explicit, always-checked overflow error. The code only guards the size
with `debug_assert!` (compiled out of release builds) before the truncating
`as u32` cast, so `compress_file` on a 2^32-byte source succeeds and
reports `uncompressed_size = 0`: a silently truncated size, not an error. -/
theorem c1_overflow_silently_truncated :
    (compressFile idDeflate (.ok (List.replicate (2 ^ 32) 0)) none
        .Stored 6).map (fun d => d.uncompressed_size) = .ok 0 := by
  have h : ∀ bs : List Nat,
      (compressFile idDeflate (.ok bs) none .Stored 6).map
        (fun d => d.uncompressed_size) = .ok (bs.length % 2 ^ 32) :=
    fun _ => rfl
  rw [h, List.length_replicate, Nat.mod_self]

/-- C2: the spec claims an open or metadata failure on a `Filesystem`-origin
job makes `into_file` return an IO error. The code calls
`File::open(path).unwrap()` and `file.metadata().unwrap()`, so on such a
failure the process aborts with a panic instead of returning the error. -/
theorem c2_open_failure_aborts :
    intoFile idDeflate noFS jobFsMissing = .panicked := by
  decide

/-- C3: the spec claims `RawData` and `Reader` jobs honor the requested
compression method in the output header. The payload is indeed produced
with the requested method (here `Stored`: the five raw bytes pass through
uncompressed), but the header field is written as the literal
`CompressionType::Deflate`, so a `Stored` request is labeled `Deflate`. -/
theorem c3_stored_request_labeled_deflate :
    jobStoredRaw.compression_type = .Stored ∧
    (intoFile idDeflate noFS jobStoredRaw).headerOf.map
        (fun h => h.compression_type) = some .Deflate ∧
    (intoFile idDeflate noFS jobStoredRaw).dataOf = some [5] := by
  decide

/-- C10: the size hint handed to `compress_file` only pre-sizes the output
buffer; any two hints (in particular `some h` versus `none`) produce the
same digest: same data, uncompressed size, and CRC. -/
theorem c10_size_hint_irrelevant (M : DeflateModel) (source : ReadSource)
    (hintA hintB : Option Nat) (ct : CompressionType) (lvl : Nat) :
    compressFile M source hintA ct lvl = compressFile M source hintB ct lvl :=
  rfl

/-- Characterization of the digest engine on a fault-free source: the CRC and
the (truncated) uncompressed size come from the raw bytes for either method,
and only the payload depends on the compression method. -/
theorem compressFile_ok (M : DeflateModel) (bs : List Nat) (hint : Option Nat)
    (ct : CompressionType) (lvl : Nat) :
    compressFile M (.ok bs) hint ct lvl =
      .ok { data := match ct with
                    | .Deflate => M.encode lvl bs
                    | .Stored => bs
            uncompressed_size := bs.length % 2 ^ 32
            crc := crc32 bs } :=
  rfl

/-- C4 (amended with the 2^32 bound): a `RawData(b)` job with the `Stored`
method yields payload `b`, uncompressed size `len b`, and CRC-32 of `b`,
whenever `len b` is representable in 32 bits (the header method is the
hardwired `Deflate`; see C3). -/
theorem c4_rawdata_stored (M : DeflateModel) (fs : FileSystem) (b : List Nat)
    (ef : ExtraFields) (ap : String) (c : Option String) (ea lvl : Nat)
    (hb : b.length < 2 ^ 32) :
    intoFile M fs ⟨.RawData b, ef, ap, c, ea, lvl, .Stored⟩ =
      .ok { header :=
              { compression_type := .Deflate
                crc := crc32 b
                uncompressed_size := b.length
                filename := ap
                external_file_attributes := ea * 2 ^ 16 % 2 ^ 32
                extra_fields := ef
                file_comment := c }
            data := b } := by
  simp only [intoFile, compressFile_ok, Nat.mod_eq_of_lt hb]

/-- Witness for C4 at the empty buffer: conversion succeeds with payload
`[]`, uncompressed size 0 and checksum 0 (the CRC-32 of empty input). -/
theorem c4_rawdata_stored_witness :
    ([] : List Nat).length < 2 ^ 32 ∧
    intoFile idDeflate noFS ⟨.RawData [], [], "e", none, 0, 6, .Stored⟩ =
      .ok ⟨⟨.Deflate, 0, 0, "e", 0, [], none⟩, []⟩ := by
  constructor
  · norm_num
  · have h := c4_rawdata_stored idDeflate noFS [] [] "e" none 0 6 (by norm_num)
    have hc : crc32 [] = 0 := by decide
    simpa [hc] using h

/-- Counterexample for C4 as stated: at a 2^32-byte buffer the produced
uncompressed size is the truncated 0, not the buffer length. -/
theorem c4_size_truncated_at_4GiB :
    (intoFile idDeflate noFS jobBigStored).headerOf.map
        (fun hd => hd.uncompressed_size)
      ≠ some (List.replicate (2 ^ 32) (0 : Nat)).length := by
  have key : ∀ bs : List Nat,
      (intoFile idDeflate noFS
          ⟨.RawData bs, [], "big", none, 0, 6, .Stored⟩).headerOf.map
        (fun hd => hd.uncompressed_size) = some (bs.length % 2 ^ 32) :=
    fun _ => rfl
  show (intoFile idDeflate noFS
      ⟨.RawData (List.replicate (2 ^ 32) 0), [], "big", none, 0, 6,
        .Stored⟩).headerOf.map (fun hd => hd.uncompressed_size) ≠ _
  rw [key, List.length_replicate, Nat.mod_self]
  simp

/-- C5 (amended with the 2^32 bound): a `RawData(b)` job with the `Deflate`
method yields a payload that decodes back to exactly `b`, uncompressed size
`len b`, and a checksum that is the CRC-32 of the uncompressed bytes `b`
(not of the compressed output), whenever `len b` fits in 32 bits. -/
theorem c5_deflate_roundtrip (M : DeflateModel) (fs : FileSystem) (b : List Nat)
    (ef : ExtraFields) (ap : String) (c : Option String) (ea lvl : Nat)
    (hb : b.length < 2 ^ 32) :
    ∃ f : ZipFile,
      intoFile M fs ⟨.RawData b, ef, ap, c, ea, lvl, .Deflate⟩ = .ok f ∧
      M.decode f.data = b ∧
      f.header.uncompressed_size = b.length ∧
      f.header.crc = crc32 b := by
  refine ⟨⟨⟨.Deflate, crc32 b, b.length, ap, ea * 2 ^ 16 % 2 ^ 32, ef, c⟩,
      M.encode lvl b⟩, ?_, M.decode_encode lvl b, rfl, rfl⟩
  simp only [intoFile, compressFile_ok, Nat.mod_eq_of_lt hb]

/-- Witness for C5 at `b = [1, 2, 3]` under the identity instance of the
deflate interface. -/
theorem c5_deflate_roundtrip_witness :
    ([1, 2, 3] : List Nat).length < 2 ^ 32 ∧
    ∃ f : ZipFile,
      intoFile idDeflate noFS ⟨.RawData [1, 2, 3], [], "d", none, 0, 9, .Deflate⟩ =
        .ok f ∧
      idDeflate.decode f.data = [1, 2, 3] ∧
      f.header.uncompressed_size = [1, 2, 3].length ∧
      f.header.crc = crc32 [1, 2, 3] :=
  ⟨by norm_num,
   c5_deflate_roundtrip idDeflate noFS [1, 2, 3] [] "d" none 0 9 (by norm_num)⟩

/-- Counterexample for C5 as stated: at a 2^32-byte buffer the produced
uncompressed size is the truncated 0, not the buffer length. -/
theorem c5_size_truncated_at_4GiB :
    (intoFile idDeflate noFS jobBigDeflate).headerOf.map
        (fun hd => hd.uncompressed_size)
      ≠ some (List.replicate (2 ^ 32) (1 : Nat)).length := by
  have key : ∀ bs : List Nat,
      (intoFile idDeflate noFS
          ⟨.RawData bs, [], "big2", none, 0, 6, .Deflate⟩).headerOf.map
        (fun hd => hd.uncompressed_size) = some (bs.length % 2 ^ 32) :=
    fun _ => rfl
  show (intoFile idDeflate noFS
      ⟨.RawData (List.replicate (2 ^ 32) 1), [], "big2", none, 0, 6,
        .Deflate⟩).headerOf.map (fun hd => hd.uncompressed_size) ≠ _
  rw [key, List.length_replicate, Nat.mod_self]
  simp

/-- Shifting a 16-bit word into the high half of a u32: the u32 arithmetic
loses nothing and the low 16 bits are zero. -/
theorem shifted_word_spec (a : Nat) (ha : a < 2 ^ 16) :
    a * 2 ^ 16 % 2 ^ 32 = a * 2 ^ 16 ∧ a * 2 ^ 16 % 2 ^ 16 = 0 := by
  have h1 : (2 : Nat) ^ 16 = 65536 := by norm_num
  have h2 : (2 : Nat) ^ 32 = 4294967296 := by norm_num
  rw [h1, h2] at *
  omega

/-- The attribute extractor always yields a 16-bit word. -/
theorem attributes_from_fs_lt (md : Metadata) : attributes_from_fs md < 2 ^ 16 :=
  Nat.mod_lt _ (by norm_num)

/-- C6: every `Filesystem`-origin job that converts successfully carries
`Deflate` in its header's compression-method field, whatever method the
caller requested — the Filesystem arm writes the literal
`CompressionType::Deflate` into the header. -/
theorem c6_filesystem_header_always_deflate (M : DeflateModel)
    (fs : FileSystem) (job : ZipJob) (p : String) (f : ZipFile)
    (hp : job.data_origin = .Filesystem p)
    (hok : intoFile M fs job = .ok f) :
    f.header.compression_type = .Deflate := by
  obtain ⟨origin, ef, ap, c, ea, lvl, ct⟩ := job
  dsimp only at hp
  subst hp
  simp only [intoFile] at hok
  split at hok
  · cases hok
  · split at hok
    · cases hok
    · cases hok
      rfl

/-- A one-file filesystem job requesting `Stored`, and the entry it
produces. -/
def jobC6 : ZipJob := ⟨.Filesystem "f.txt", [9], "arc/f.txt", none, 0, 6, .Stored⟩

/-- The entry `jobC6` produces on `fsOne`: mode 0o100644 truncates to 33188
and is shifted; the empty content digests to size 0 and CRC 0; the header
method is `Deflate` although `Stored` was requested. -/
def zfC6 : ZipFile :=
  ⟨⟨.Deflate, 0, 0, "arc/f.txt", 33188 * 2 ^ 16, [7, 9], none⟩, []⟩

/-- Witness for C6: a concrete `Stored`-requesting filesystem job whose
produced header says `Deflate`. -/
theorem c6_witness :
    jobC6.data_origin = ZipJobOrigin.Filesystem "f.txt" ∧
    intoFile idDeflate fsOne jobC6 = .ok zfC6 ∧
    zfC6.header.compression_type = .Deflate :=
  ⟨rfl, by decide,
   c6_filesystem_header_always_deflate idDeflate fsOne jobC6 "f.txt" zfC6
     rfl (by decide)⟩

/-- C7: for every job of a file-entry origin (`Filesystem`, `RawData`,
`Reader`) that converts successfully, the 32-bit external-attributes word
equals a 16-bit attribute word shifted left by 16 bits, so its low 16 bits
are zero. -/
theorem c7_attributes_shifted (M : DeflateModel) (fs : FileSystem)
    (job : ZipJob) (f : ZipFile)
    (hnd : job.data_origin ≠ .Directory)
    (hea : job.external_attributes < 2 ^ 16)
    (hok : intoFile M fs job = .ok f) :
    ∃ a, a < 2 ^ 16 ∧ f.header.external_file_attributes = a * 2 ^ 16 ∧
      f.header.external_file_attributes % 2 ^ 16 = 0 := by
  obtain ⟨origin, ef, ap, c, ea, lvl, ct⟩ := job
  dsimp only at hnd hea
  cases origin with
  | Directory => exact absurd rfl hnd
  | Filesystem p =>
    simp only [intoFile] at hok
    split at hok
    · cases hok
    · rename_i file hfs
      split at hok
      · cases hok
      · cases hok
        refine ⟨attributes_from_fs file.metadata, attributes_from_fs_lt _,
          ?_, ?_⟩
        · exact (shifted_word_spec _ (attributes_from_fs_lt file.metadata)).1
        · rw [(shifted_word_spec _ (attributes_from_fs_lt file.metadata)).1]
          exact (shifted_word_spec _ (attributes_from_fs_lt file.metadata)).2
  | RawData dat =>
    simp only [intoFile] at hok
    split at hok
    · cases hok
    · cases hok
      refine ⟨ea, hea, ?_, ?_⟩
      · exact (shifted_word_spec _ hea).1
      · rw [(shifted_word_spec _ hea).1]
        exact (shifted_word_spec _ hea).2
  | Reader r =>
    simp only [intoFile] at hok
    split at hok
    · cases hok
    · cases hok
      refine ⟨ea, hea, ?_, ?_⟩
      · exact (shifted_word_spec _ hea).1
      · rw [(shifted_word_spec _ hea).1]
        exact (shifted_word_spec _ hea).2

/-- A raw-data job with external attributes 5, and the entry it produces. -/
def jobC7 : ZipJob := ⟨.RawData [], [], "c", none, 5, 6, .Stored⟩

/-- The entry `jobC7` produces: attribute word 5 shifted into the high
16 bits. -/
def zfC7 : ZipFile := ⟨⟨.Deflate, 0, 0, "c", 5 * 2 ^ 16, [], none⟩, []⟩

/-- Witness for C7 at a concrete raw-data job. -/
theorem c7_witness :
    jobC7.data_origin ≠ ZipJobOrigin.Directory ∧
    jobC7.external_attributes < 2 ^ 16 ∧
    intoFile idDeflate noFS jobC7 = .ok zfC7 ∧
    (∃ a, a < 2 ^ 16 ∧ zfC7.header.external_file_attributes = a * 2 ^ 16 ∧
      zfC7.header.external_file_attributes % 2 ^ 16 = 0) :=
  ⟨by decide, by decide, by decide,
   c7_attributes_shifted idDeflate noFS jobC7 zfC7 (by decide) (by decide)
     (by decide)⟩

/-- C8: every `Directory`-origin job converts successfully to an entry with
an empty payload, zero size and zero checksum, independently of the
requested compression method and level (neither occurs in the result), with
path, auxiliary records, shifted external attributes and comment carried
through unchanged. -/
theorem c8_directory (M : DeflateModel) (fs : FileSystem) (job : ZipJob)
    (hd : job.data_origin = .Directory) :
    intoFile M fs job =
      .ok { header := { compression_type := .Stored
                        crc := 0
                        uncompressed_size := 0
                        filename := job.archive_path
                        external_file_attributes :=
                          job.external_attributes * 2 ^ 16 % 2 ^ 32
                        extra_fields := job.extra_fields
                        file_comment := job.file_comment }
            data := [] } := by
  obtain ⟨origin, ef, ap, c, ea, lvl, ct⟩ := job
  dsimp only at hd ⊢
  subst hd
  rfl

/-- A directory job carrying nontrivial metadata. -/
def jobC8 : ZipJob := ⟨.Directory, [3], "dirp", some "cm", 7, 9, .Deflate⟩

/-- Witness for C8 at a concrete directory job. -/
theorem c8_witness :
    jobC8.data_origin = ZipJobOrigin.Directory ∧
    intoFile idDeflate noFS jobC8 =
      .ok ⟨⟨.Stored, 0, 0, "dirp", 7 * 2 ^ 16 % 2 ^ 32, [3], some "cm"⟩, []⟩ :=
  ⟨rfl, c8_directory idDeflate noFS jobC8 rfl⟩

/-- C9: for every `Filesystem`-origin job that converts successfully, the
entry's auxiliary records are the order-preserving append of the
metadata-derived records followed by the caller-supplied ones; counting
occurrences shows no record of either side is lost, duplicates included. -/
theorem c9_extra_fields_merge (M : DeflateModel) (fs : FileSystem)
    (job : ZipJob) (p : String) (file : FsFile) (f : ZipFile)
    (hp : job.data_origin = .Filesystem p)
    (hfs : fs p = .ok file)
    (hok : intoFile M fs job = .ok f) :
    f.header.extra_fields =
      ExtraFields.new_from_fs file.metadata ++ job.extra_fields ∧
    ∀ r : Nat, (f.header.extra_fields).count r =
      (ExtraFields.new_from_fs file.metadata).count r +
        (job.extra_fields).count r := by
  obtain ⟨origin, ef, ap, c, ea, lvl, ct⟩ := job
  dsimp only at hp ⊢
  subst hp
  simp only [intoFile, hfs] at hok
  split at hok
  · cases hok
  · cases hok
    refine ⟨rfl, fun r => ?_⟩
    exact List.count_append r (ExtraFields.new_from_fs file.metadata) ef

/-- A filesystem file whose metadata derives the records `[7, 8]`, with a
one-byte content. -/
def fileDup : FsFile := ⟨⟨1, 511, false, [7, 8]⟩, .ok [1]⟩

/-- A filesystem holding `fileDup` at "d.txt". -/
def fsDup : FileSystem := fun p =>
  if p = "d.txt" then .ok fileDup else .error ⟨2⟩

/-- A filesystem job supplying the records `[8, 7]`, overlapping the
metadata-derived ones. -/
def jobC9 : ZipJob := ⟨.Filesystem "d.txt", [8, 7], "d.txt", none, 0, 6, .Deflate⟩

/-- The entry `jobC9` produces on `fsDup`: merged records `[7, 8, 8, 7]`,
filesystem-derived first, duplicates kept. -/
def zfC9 : ZipFile :=
  ⟨⟨.Deflate, crc32 [1], 1, "d.txt", 511 * 2 ^ 16, [7, 8, 8, 7], none⟩, [1]⟩

/-- Witness for C9 at a concrete overlapping pair of record sets. -/
theorem c9_witness :
    jobC9.data_origin = ZipJobOrigin.Filesystem "d.txt" ∧
    fsDup "d.txt" = .ok fileDup ∧
    intoFile idDeflate fsDup jobC9 = .ok zfC9 ∧
    zfC9.header.extra_fields =
      ExtraFields.new_from_fs fileDup.metadata ++ jobC9.extra_fields :=
  ⟨rfl, by simp [fsDup], by decide,
   (c9_extra_fields_merge idDeflate fsDup jobC9 "d.txt" fileDup zfC9 rfl
     (by simp [fsDup]) (by decide)).1⟩

end Mtzip
